import Mathlib

/-!
# Verification of the KENYASHIP backend core

A shallow embedding, in Lean 4, of the server-side core of the KENYASHIP
last-mile courier platform, together with proofs and refutations of the
stated properties of its specification.

Each definition mirrors one TypeScript function of the repository
(`src/backend/src/...`), with JavaScript `Map`s rendered as insertion-ordered
association lists (JS `Map` iteration order is insertion order, and `set` on
an existing key keeps its position), fresh UUIDs and clock reads passed as
explicit arguments, and exceptions rendered as `Except`.
-/

namespace Kenyaship

/-- Insertion-ordered association-list lookup (JS `Map.get`). -/
def lookupA {α : Type} (k : String) : List (String × α) → Option α
  | [] => none
  | (k₁, v) :: rest => if k₁ = k then some v else lookupA k rest

/-- Insertion-ordered association-list update (JS `Map.set`): overwriting an
existing key keeps its position, a new key is appended. -/
def setA {α : Type} (k : String) (v : α) : List (String × α) → List (String × α)
  | [] => [(k, v)]
  | (k₁, v₁) :: rest => if k₁ = k then (k, v) :: rest else (k₁, v₁) :: setA k v rest

/-- JS `Map.delete`. -/
def deleteA {α : Type} (k : String) : List (String × α) → List (String × α)
  | [] => []
  | (k₁, v₁) :: rest => if k₁ = k then rest else (k₁, v₁) :: deleteA k rest

/-! ## Access control (`privacy-access-control/access-control.ts`, `middleware/auth.middleware.ts`) -/

namespace AccessControl

/-- The fixed role set of the identity model. -/
inductive UserRole where
  | customer
  | driver
  | dispatcher
  | security_officer
  | admin
  | system
deriving DecidableEq, Repr

/-- Permissions are plain strings (`'*'` is the wildcard grant). -/
abbrev Permission := String

/-- `ROLE_PERMISSIONS` table / `getUserPermissions`: the role→grants matrix. -/
def getUserPermissions : UserRole → List Permission
  | .customer => ["read:own_delivery", "write:own_delivery_consent", "read:own_notification"]
  | .driver => ["read:assigned_delivery", "write:delivery_status", "read:emergency", "write:emergency"]
  | .dispatcher => ["read:all_delivery", "write:delivery_assignment", "read:emergency", "read:audit"]
  | .security_officer => ["read:security_alert", "write:security_alert", "read:emergency", "read:audit", "read:location_history"]
  | .admin => ["*"]
  | .system => ["*"]

/-- `hasPermission(userRole, permission)`: wildcard-aware membership test. -/
def hasPermission (userRole : UserRole) (permission : Permission) : Bool :=
  let perms := getUserPermissions userRole
  perms.contains "*" || perms.contains permission

/-- The `req.user` object installed by `authMiddleware` on a valid bearer token:
`permissions` is filled from `getUserPermissions(role)`. -/
structure AuthedUser where
  id : String
  role : UserRole
  permissions : List Permission
deriving DecidableEq, Repr

/-- `authMiddleware`'s success path: bind identity with the role's grant list. -/
def authedAs (id : String) (role : UserRole) : AuthedUser :=
  ⟨id, role, getUserPermissions role⟩

/-- Outcome of a guard middleware: call `next()`, or refuse with an HTTP error. -/
inductive GuardOutcome where
  | next
  | forbidden403
  | unauthorized401
deriving DecidableEq, Repr

/-- `requirePermission(permission)`: rejects unless `req.user` exists and
`req.user.permissions.includes(permission)` — a plain membership test, with no
wildcard case. -/
def requirePermission (permission : Permission) (user : Option AuthedUser) : GuardOutcome :=
  match user with
  | none => .forbidden403
  | some u => if u.permissions.contains permission then .next else .forbidden403

end AccessControl

/-! ## Crypto primitives (`crypto/encryption.ts`)

AES-256-GCM with a per-context key derived by `HMAC-SHA256(masterKey, contextId)`.
The bit-level primitives are idealized structurally: the derived key is the
(injective) pair of its two HMAC arguments, and the GCM auth tag is the
(injective) triple binding (derived key, iv, body) — i.e. the PRF and the MAC
are collision-free, which is the standard idealization under which the
integrity contract of the code is stated. The body of the ciphertext carries
the plaintext through the ideal stream cipher. The wire form
`base64(iv):base64(tag):base64(body)` is rendered as the structured triple;
the `invalid_format` branch of `decrypt` corresponds to wire strings that do
not parse into three segments and is not reachable from a structured value. -/

namespace Crypto

/-- The process-wide master key `config.encryptionKey` (concrete stand-in). -/
def encryptionKey : String := "kenyaship-master-encryption-key!"

/-- Idealized `HMAC-SHA256(masterKey, contextId)` key derivation: injective in
both arguments. -/
structure DerivedKey where
  masterKey : String
  contextId : String
deriving DecidableEq, Repr

/-- `crypto.createHmac('sha256', config.encryptionKey).update(contextId).digest()`. -/
def deriveKey (contextId : String) : DerivedKey :=
  ⟨encryptionKey, contextId⟩

/-- Idealized GCM authentication tag: binds the derived key, the iv and the body. -/
structure AuthTag where
  key : DerivedKey
  iv : String
  body : String
deriving DecidableEq, Repr

/-- The `iv:authTag:encrypted` triple produced by `encrypt`. -/
structure Ciphertext where
  iv : String
  tag : AuthTag
  body : String
deriving DecidableEq, Repr

/-- `encrypt(text, contextId)`: derive the context key, pick a fresh iv (passed
explicitly here), encrypt and emit `iv:authTag:body`. -/
def encrypt (text contextId iv : String) : Ciphertext :=
  let derivedKey := deriveKey contextId
  { iv := iv, tag := ⟨derivedKey, iv, text⟩, body := text }

/-- Failures of `decrypt`: `Invalid encryption format` (fewer than three wire
segments) and GCM tag mismatch (`decipher.final` throws). -/
inductive DecryptError where
  | invalidFormat
  | authFailed
deriving DecidableEq, Repr

/-- `decrypt(encryptedText, contextId)`: re-derive the context key, check the
auth tag, and return the plaintext; a tag that does not verify under the
re-derived key raises the auth failure. -/
def decrypt (c : Ciphertext) (contextId : String) : Except DecryptError String :=
  let derivedKey := deriveKey contextId
  if c.tag = ⟨derivedKey, c.iv, c.body⟩ then .ok c.body else .error .authFailed

end Crypto

/-! ## Hashing (`crypto/hashing.ts`)

`sha256` and `hmacSha256` return hex digests; they are idealized as injective
string encodings of their inputs (collision-free hash / PRF), which is the
assumption under which the code's integrity checks are meaningful. -/

namespace Hashing

/-- `sha256(data)`: idealized collision-free digest. -/
def sha256 (data : String) : String :=
  "sha256(" ++ data ++ ")"

/-- `hmacSha256(data, key)`: idealized collision-free keyed digest. -/
def hmacSha256 (data key : String) : String :=
  "hmac(" ++ key ++ "," ++ data ++ ")"

end Hashing

/-- JS `toUpperCase`, rendered over the character list (the core library's
`String.toUpper` is not kernel-reducible). -/
def strToUpper (s : String) : String :=
  ⟨s.data.map Char.toUpper⟩

/-! ## Delivery verifier (`services/delivery-verification/verifier.ts`)

The five in-memory stores become fields of `VerifierState`. Fresh UUIDs, the
clock, the TOTP library calls (`totp.generate` / `totp.verify`, which close
over the wall clock) and the random iv of `encrypt` enter as explicit
arguments. `calculateDistance` (floating-point Haversine over WGS-84, in
`utils/geo-utils.ts`) is not bit-exactly embeddable; its result enters
`verifyGeofence` as the `distance` argument, exactly as the code consumes it. -/

namespace Verifier

/-- Verification methods (`VerificationMethod`). -/
inductive Method where
  | otp
  | photo
  | signature
  | geofence
  | code
deriving DecidableEq, Repr

/-- `OTPRecord` (times as ms epoch instants). -/
structure OTPRecord where
  id : String
  deliveryId : String
  recipientId : String
  otpEncrypted : Crypto.Ciphertext
  expiresAt : Nat
  createdAt : Nat
  attemptCount : Nat
  isVerified : Bool
  verifiedAt : Option Nat
deriving DecidableEq, Repr

/-- `DeliveryVerification`. -/
structure DeliveryVerification where
  id : String
  deliveryId : String
  methodsRequired : List Method
  methodsCompleted : List Method
  isComplete : Bool
  completedAt : Option Nat
deriving DecidableEq, Repr

/-- `DeliveryPhoto` (metadata kept as the pre-encryption byte count). -/
structure DeliveryPhoto where
  id : String
  deliveryId : String
  photoEncrypted : Crypto.Ciphertext
  sizeBytes : Nat
  capturedAt : Nat
deriving DecidableEq, Repr

/-- `DeliverySignature`. -/
structure DeliverySignature where
  id : String
  deliveryId : String
  signatureEncrypted : Crypto.Ciphertext
  signatureHash : String
  capturedAt : Nat
deriving DecidableEq, Repr

/-- Result shape of `verifyOTP`. -/
structure OTPVerifyResult where
  isValid : Bool
  reason : Option String
  remainingAttempts : Option Nat
deriving DecidableEq, Repr

/-- The verifier module's in-memory stores. `otpStore`, `photoStore` and
`signatureStore` are keyed by record id, `verificationStore` and
`deliverySecrets` by delivery id. -/
structure VerifierState where
  otpStore : List (String × OTPRecord)
  photoStore : List (String × DeliveryPhoto)
  signatureStore : List (String × DeliverySignature)
  verificationStore : List (String × DeliveryVerification)
  deliverySecrets : List (String × String)
deriving Repr

/-- The empty stores at module load. -/
def initVerifier : VerifierState :=
  ⟨[], [], [], [], []⟩

/-- `config.otpTtlSeconds` default. -/
def otpTtlSeconds : Nat := 300

/-- `config.hmacSecret` (concrete stand-in). -/
def hmacSecret : String := "kenyaship-hmac-secret-32-chars!!"

/-- First half of `updateVerification`'s record transform: push the method
onto the completed list if absent. -/
def pushMethod (v : DeliveryVerification) (method : Method) : DeliveryVerification :=
  if v.methodsCompleted.contains method then v
  else { v with methodsCompleted := v.methodsCompleted ++ [method] }

/-- The record transform of `updateVerification`: push the method if absent,
then mark complete when every required method is in the completed list. -/
def applyMethod (v : DeliveryVerification) (method : Method) (now : Nat) :
    DeliveryVerification :=
  if (pushMethod v method).methodsRequired.all
        (fun m => (pushMethod v method).methodsCompleted.contains m)
      && !(pushMethod v method).isComplete then
    { pushMethod v method with isComplete := true, completedAt := some now }
  else pushMethod v method

/-- `updateVerification(deliveryId, method)`: no-op when no verification record
exists for the delivery, else store the transformed record. -/
def updateVerification (s : VerifierState) (deliveryId : String) (method : Method)
    (now : Nat) : VerifierState :=
  match lookupA deliveryId s.verificationStore with
  | none => s
  | some v =>
    { s with verificationStore := setA deliveryId (applyMethod v method now) s.verificationStore }

/-- `initializeVerification(deliveryId, requiredMethods)`: store a fresh record
with empty completed list under the delivery id. -/
def initializeVerification (s : VerifierState) (deliveryId freshId : String)
    (requiredMethods : List Method) : DeliveryVerification × VerifierState :=
  let verification : DeliveryVerification :=
    { id := freshId, deliveryId, methodsRequired := requiredMethods,
      methodsCompleted := [], isComplete := false, completedAt := none }
  (verification, { s with verificationStore := setA deliveryId verification s.verificationStore })

/-- `generateOTP(deliveryId, recipientId)`: reuse or create the per-delivery
TOTP secret, emit the library token (`otpToken`, produced by `totp.generate`
from the secret and the clock), store the encrypted record with
`attemptCount = 0`. -/
def generateOTP (s : VerifierState) (deliveryId recipientId : String)
    (freshSecret freshId otpToken iv : String) (now : Nat) :
    (String × Nat) × VerifierState :=
  let secrets := match lookupA deliveryId s.deliverySecrets with
    | some _ => s.deliverySecrets
    | none => setA deliveryId freshSecret s.deliverySecrets
  let expiresAt := now + otpTtlSeconds * 1000
  let record : OTPRecord :=
    { id := freshId, deliveryId, recipientId,
      otpEncrypted := Crypto.encrypt otpToken deliveryId iv,
      expiresAt, createdAt := now, attemptCount := 0,
      isVerified := false, verifiedAt := none }
  ((otpToken, expiresAt),
    { s with otpStore := setA record.id record s.otpStore, deliverySecrets := secrets })

/-- `verifyOTP(deliveryId, providedOTP)`. `totpVerify token secret` stands for
`totp.verify({token, secret})` at the current instant. Branch order follows
the source: missing secret, no pending (unverified) record in store order,
expiry, attempt cap, then the comparison — which always increments
`attemptCount`, marking the record verified only on success and then calling
`updateVerification('otp')`. -/
def verifyOTP (s : VerifierState) (deliveryId providedOTP : String)
    (totpVerify : String → String → Bool) (now : Nat) :
    OTPVerifyResult × VerifierState :=
  match lookupA deliveryId s.deliverySecrets with
  | none => (⟨false, some "no_otp_generated", none⟩, s)
  | some secret =>
    match (s.otpStore.map Prod.snd).find?
        (fun r => r.deliveryId == deliveryId && !r.isVerified) with
    | none => (⟨false, some "no_pending_otp", none⟩, s)
    | some otpRecord =>
      if otpRecord.expiresAt < now then
        (⟨false, some "otp_expired", none⟩, s)
      else if otpRecord.attemptCount ≥ 5 then
        (⟨false, some "max_attempts_exceeded", some 0⟩, s)
      else
        let isValid := totpVerify providedOTP secret
        let newCount := otpRecord.attemptCount + 1
        if isValid then
          let verified := { otpRecord with
            attemptCount := newCount,
            isVerified := true,
            verifiedAt := some now }
          let s₁ := { s with otpStore := setA otpRecord.id verified s.otpStore }
          (⟨true, none, none⟩, updateVerification s₁ deliveryId .otp now)
        else
          let bumped := { otpRecord with attemptCount := newCount }
          (⟨false, some "invalid_otp", some (5 - newCount)⟩,
            { s with otpStore := setA otpRecord.id bumped s.otpStore })

/-- `storeDeliveryPhoto(deliveryId, photoData, metadata)`: encrypt under the
delivery context, store, then `updateVerification('photo')`. -/
def storeDeliveryPhoto (s : VerifierState) (deliveryId photoData freshId iv : String)
    (now : Nat) : DeliveryPhoto × VerifierState :=
  let photo : DeliveryPhoto :=
    { id := freshId, deliveryId,
      photoEncrypted := Crypto.encrypt photoData deliveryId iv,
      sizeBytes := photoData.length, capturedAt := now }
  let s₁ := { s with photoStore := setA photo.id photo s.photoStore }
  (photo, updateVerification s₁ deliveryId .photo now)

/-- `storeSignature(deliveryId, signatureData, signerName?)`: hash the
plaintext, encrypt, store, then `updateVerification('signature')`. -/
def storeSignature (s : VerifierState) (deliveryId signatureData freshId iv : String)
    (now : Nat) : DeliverySignature × VerifierState :=
  let signature : DeliverySignature :=
    { id := freshId, deliveryId,
      signatureEncrypted := Crypto.encrypt signatureData deliveryId iv,
      signatureHash := Hashing.sha256 signatureData, capturedAt := now }
  let s₁ := { s with signatureStore := setA signature.id signature s.signatureStore }
  (signature, updateVerification s₁ deliveryId .signature now)

/-- `verifyGeofence(deliveryId, driverLocation, deliveryLocation, radiusMeters)`:
compare the Haversine distance (entering as `distance`) with the radius; on
success `updateVerification('geofence')`. -/
def verifyGeofence (s : VerifierState) (deliveryId : String)
    (distance radiusMeters : ℚ) (now : Nat) : (Bool × ℚ) × VerifierState :=
  let isWithinGeofence := distance ≤ radiusMeters
  if isWithinGeofence then
    ((true, distance), updateVerification s deliveryId .geofence now)
  else
    ((false, distance), s)

/-- `createFallbackVerification(deliveryId, fallbackCode)`: compare (upper-cased)
against `hmacSha256(deliveryId, hmacSecret)[0:8].toUpperCase()`; on match set
the stored verification complete with `methodsCompleted = ['code']`. -/
def createFallbackVerification (s : VerifierState) (deliveryId fallbackCode : String)
    (now : Nat) : Bool × VerifierState :=
  let expectedCode := strToUpper ((Hashing.hmacSha256 deliveryId hmacSecret).take 8)
  let isValid := strToUpper fallbackCode = expectedCode
  if isValid then
    match lookupA deliveryId s.verificationStore with
    | none => (true, s)
    | some v =>
      let v₁ := { v with
        isComplete := true,
        completedAt := some now,
        methodsCompleted := [Method.code] }
      (true, { s with verificationStore := setA deliveryId v₁ s.verificationStore })
  else
    (false, s)

/-- `getVerificationStatus(deliveryId)`. -/
def getVerificationStatus (s : VerifierState) (deliveryId : String) :
    Option DeliveryVerification :=
  lookupA deliveryId s.verificationStore

/-- One public verifier operation, with its external inputs (ids, clock,
library results) made explicit. -/
inductive VOp where
  | initVer (deliveryId freshId : String) (requiredMethods : List Method)
  | genOTP (deliveryId recipientId freshSecret freshId otpToken iv : String) (now : Nat)
  | verify (deliveryId providedOTP : String) (totpVerify : String → String → Bool) (now : Nat)
  | photo (deliveryId photoData freshId iv : String) (now : Nat)
  | sign (deliveryId signatureData freshId iv : String) (now : Nat)
  | geofence (deliveryId : String) (distance radiusMeters : ℚ) (now : Nat)
  | fallback (deliveryId fallbackCode : String) (now : Nat)

/-- Apply one public operation (state part). -/
def stepV (s : VerifierState) : VOp → VerifierState
  | .initVer d f req => (initializeVerification s d f req).2
  | .genOTP d r fs fi tok iv now => (generateOTP s d r fs fi tok iv now).2
  | .verify d tok tv now => (verifyOTP s d tok tv now).2
  | .photo d data fi iv now => (storeDeliveryPhoto s d data fi iv now).2
  | .sign d data fi iv now => (storeSignature s d data fi iv now).2
  | .geofence d dist rad now => (verifyGeofence s d dist rad now).2
  | .fallback d code now => (createFallbackVerification s d code now).2

/-- Run a sequence of public operations from the empty stores. -/
def runV (ops : List VOp) : VerifierState :=
  ops.foldl stepV initVerifier

/-- `VOp.isInit`: whether the operation is `initializeVerification`. -/
def VOp.isInit : VOp → Bool
  | .initVer _ _ _ => true
  | _ => false

/-- The S2 bruteforce scenario's TOTP comparator: the delivery secret is
`sec2` and the only token the library accepts is `111111`. -/
def bruteTotp (t s : String) : Bool :=
  t == "111111" && s == "sec2"

/-- The S2 bruteforce scenario: initialize with required `[otp]`, generate an
OTP whose valid token is `111111`, then `k` wrong attempts with `000000`. -/
def bruteOps (k : Nat) : List VOp :=
  [.initVer "D2" "v2" [.otp], .genOTP "D2" "R2" "sec2" "o2" "111111" "iv2" 0] ++
  (List.range k).map (fun i => .verify "D2" "000000" bruteTotp (100 + i))

/-- `required ⊆ completed → complete`, for every stored record with a nonempty
required set: the provable direction of the spec's completeness invariant. -/
def SubsetCompleteStore (store : List (String × DeliveryVerification)) : Prop :=
  ∀ d v, lookupA d store = some v → v.methodsRequired ≠ [] →
    (∀ m ∈ v.methodsRequired, m ∈ v.methodsCompleted) → v.isComplete = true

end Verifier

/-! ## Emergency orchestrator (`services/emergency-response/orchestrator.ts`)

`emergencyStore` is keyed by emergency id, `activeEmergencies` maps a driver id
to their active emergency id. `triggerPanicButton` is sequential here: the
`await initiateEmergencyResponse(emergency)` inside it completes (setting the
record's status to `responding`) before the call returns, exactly as a lone
awaited call behaves. -/

namespace Emergency

/-- `EmergencyRecord.status` values. -/
inductive EStatus where
  | triggered
  | responding
  | acknowledged
  | resolved
deriving DecidableEq, Repr

/-- `EmergencyType` values reachable from this module. -/
inductive EType where
  | panic_button
  | accident_detected
deriving DecidableEq, Repr

/-- `RawCoordinates` (exact rationals stand for the JS numbers). -/
structure RawCoordinates where
  latitude : ℚ
  longitude : ℚ
deriving DecidableEq, Repr

/-- `EmergencyRecord`. -/
structure EmergencyRecord where
  id : String
  driverId : String
  deliveryId : Option String
  emergencyType : EType
  location : RawCoordinates
  triggeredAt : Nat
  status : EStatus
deriving DecidableEq, Repr

/-- The orchestrator module's stores. -/
structure EmergencyState where
  emergencyStore : List (String × EmergencyRecord)
  activeEmergencies : List (String × String)
deriving Repr

/-- Empty stores at module load. -/
def initEmergency : EmergencyState :=
  ⟨[], []⟩

/-- `createEmergencyRecord`: store a `triggered` record and point the driver's
active-emergency entry at it. -/
def createEmergencyRecord (s : EmergencyState) (driverId : String) (emergencyType : EType)
    (location : RawCoordinates) (deliveryId : Option String) (freshId : String) (now : Nat) :
    EmergencyRecord × EmergencyState :=
  let emergency : EmergencyRecord :=
    { id := freshId, driverId, deliveryId, emergencyType, location,
      triggeredAt := now, status := .triggered }
  (emergency,
    { emergencyStore := setA emergency.id emergency s.emergencyStore,
      activeEmergencies := setA driverId emergency.id s.activeEmergencies })

/-- `initiateEmergencyResponse`: transition the record to `responding` (the TS
mutates the shared object, so both the store and the returned record see it). -/
def initiateEmergencyResponse (s : EmergencyState) (e : EmergencyRecord) :
    EmergencyRecord × EmergencyState :=
  let e₁ := { e with status := .responding }
  (e₁, { s with emergencyStore := setA e.id e₁ s.emergencyStore })

/-- `triggerPanicButton(driverId, location, deliveryId?)`: return the existing
record only when the driver's active emergency is still in status `triggered`;
otherwise create a fresh record and immediately run the (awaited) response
initiation. -/
def triggerPanicButton (s : EmergencyState) (driverId : String) (location : RawCoordinates)
    (deliveryId : Option String) (freshId : String) (now : Nat) :
    EmergencyRecord × EmergencyState :=
  let fresh :=
    let (e, s₁) := createEmergencyRecord s driverId .panic_button location deliveryId freshId now
    initiateEmergencyResponse s₁ e
  match lookupA driverId s.activeEmergencies with
  | none => fresh
  | some existingId =>
    match lookupA existingId s.emergencyStore with
    | none => fresh
    | some existing =>
      if existing.status = .triggered then (existing, s) else fresh

/-- `getActiveEmergency(driverId)`. -/
def getActiveEmergency (s : EmergencyState) (driverId : String) : Option EmergencyRecord :=
  match lookupA driverId s.activeEmergencies with
  | none => none
  | some id => lookupA id s.emergencyStore

/-- `resolveEmergency(emergencyId, resolvedBy)`: mark resolved and clear the
driver's active entry. -/
def resolveEmergency (s : EmergencyState) (emergencyId : String) : Bool × EmergencyState :=
  match lookupA emergencyId s.emergencyStore with
  | none => (false, s)
  | some e =>
    (true,
      { emergencyStore := setA emergencyId { e with status := .resolved } s.emergencyStore,
        activeEmergencies := deleteA e.driverId s.activeEmergencies })

end Emergency

/-! ## Real-time broadcaster (`services/realtime-broadcast/broadcaster.ts`)

Sessions are keyed by socket id; `deliveryRooms` mirrors the socket.io room of
each delivery (`join`/`leave`/disconnect keep them in sync in the source);
`offlineQueue` holds per-user pending events. `broadcast` returns the list of
`(socketId, event)` emissions of the call, in emission order. -/

namespace Broadcast

/-- `RealtimeEvent.audience`: any combination of delivery room, user ids, roles. -/
structure Audience where
  deliveryId : Option String
  userIds : List String
  roles : List AccessControl.UserRole
deriving DecidableEq, Repr

/-- `RealtimeEvent` (payload irrelevant to the claims; `eventId` kept). -/
structure RTEvent where
  eventId : String
  etype : String
  audience : Audience
deriving DecidableEq, Repr

/-- An authenticated session's identity. -/
structure Client where
  userId : String
  role : AccessControl.UserRole
deriving DecidableEq, Repr

/-- The broadcaster module's stores. -/
structure BState where
  clients : List (String × Client)
  deliveryRooms : List (String × List String)
  offlineQueue : List (String × List RTEvent)
deriving Repr

/-- Empty stores at module load. -/
def initBroadcast : BState :=
  ⟨[], [], []⟩

/-- The offline-queue push of `broadcast`: append, then drop the oldest when
the length exceeds 50 (`queue.push(event); if (queue.length > 50) queue.shift()`). -/
def pushBounded (q : List RTEvent) (e : RTEvent) : List RTEvent :=
  let q₁ := q ++ [e]
  if q₁.length > 50 then q₁.tail else q₁

/-- `broadcast(event)`: emit to the delivery room, then to each live session of
a listed user (queueing for listed users with no live session), then to each
live session holding a listed role. No de-duplication is performed. -/
def broadcast (s : BState) (event : RTEvent) : List (String × RTEvent) × BState :=
  let roomEmits := match event.audience.deliveryId with
    | some d => ((lookupA d s.deliveryRooms).getD []).map (fun sid => (sid, event))
    | none => []
  let userEmits :=
    if event.audience.userIds.isEmpty then []
    else (s.clients.filter (fun c => event.audience.userIds.contains c.2.userId)).map
      (fun c => (c.1, event))
  let queue₁ :=
    if event.audience.userIds.isEmpty then s.offlineQueue
    else event.audience.userIds.foldl (fun q u =>
      if s.clients.any (fun c => c.2.userId == u) then q
      else setA u (pushBounded ((lookupA u q).getD []) event) q) s.offlineQueue
  let roleEmits :=
    if event.audience.roles.isEmpty then []
    else (s.clients.filter (fun c => event.audience.roles.contains c.2.role)).map
      (fun c => (c.1, event))
  (roomEmits ++ userEmits ++ roleEmits, { s with offlineQueue := queue₁ })

/-- The `authenticate` handler: bind the session, then drain the user's
offline queue in order and delete it. -/
def authenticate (s : BState) (socketId userId : String) (role : AccessControl.UserRole) :
    List (String × RTEvent) × BState :=
  let s₁ := { s with clients := setA socketId ⟨userId, role⟩ s.clients }
  match lookupA userId s₁.offlineQueue with
  | none => ([], s₁)
  | some queued =>
    if queued.isEmpty then ([], s₁)
    else (queued.map (fun e => (socketId, e)),
      { s₁ with offlineQueue := deleteA userId s₁.offlineQueue })

/-- The `subscribe:delivery` handler. -/
def subscribeDelivery (s : BState) (socketId deliveryId : String) : BState :=
  let room := (lookupA deliveryId s.deliveryRooms).getD []
  let room₁ := if room.contains socketId then room else room ++ [socketId]
  { s with deliveryRooms := setA deliveryId room₁ s.deliveryRooms }

/-- The `disconnect` handler: drop the session and remove it from every room. -/
def disconnect (s : BState) (socketId : String) : BState :=
  { s with
    clients := deleteA socketId s.clients,
    deliveryRooms := s.deliveryRooms.map (fun r => (r.1, r.2.filter (fun x => x ≠ socketId))) }

/-- One broadcaster operation with explicit inputs. -/
inductive BOp where
  | bcast (event : RTEvent)
  | auth (socketId userId : String) (role : AccessControl.UserRole)
  | sub (socketId deliveryId : String)
  | disc (socketId : String)

/-- Apply one broadcaster operation (state part). -/
def stepB (s : BState) : BOp → BState
  | .bcast e => (broadcast s e).2
  | .auth sid u r => (authenticate s sid u r).2
  | .sub sid d => subscribeDelivery s sid d
  | .disc sid => disconnect s sid

/-- Run a sequence of broadcaster operations from the empty stores. -/
def runB (ops : List BOp) : BState :=
  ops.foldl stepB initBroadcast

/-- Whether the event's delivery room contains this socket. -/
def roomHit (s : BState) (event : RTEvent) (sid : String) : Bool :=
  match event.audience.deliveryId with
  | some d => ((lookupA d s.deliveryRooms).getD []).contains sid
  | none => false

/-- Whether this socket's session belongs to a listed user. -/
def userHit (s : BState) (event : RTEvent) (sid : String) : Bool :=
  match lookupA sid s.clients with
  | some c => event.audience.userIds.contains c.userId
  | none => false

/-- Whether this socket's session holds a listed role. -/
def roleHit (s : BState) (event : RTEvent) (sid : String) : Bool :=
  match lookupA sid s.clients with
  | some c => event.audience.roles.contains c.role
  | none => false

/-- The S5 scenario event stream: 51 user-targeted events for the offline
user `U2`, with distinct event ids. -/
def s5Event (i : Nat) : RTEvent :=
  { eventId := "evt-" ++ toString i, etype := "delivery:status_update",
    audience := { deliveryId := none, userIds := ["U2"], roles := [] } }

/-- The S5 scenario: 51 broadcasts while `U2` has no live session. -/
def s5Ops : List BOp :=
  (List.range 51).map (fun i => .bcast (s5Event i))

end Broadcast

/-! ## Notification dispatcher (`notifier.ts`)

`sendNotification` rate-limits per `(recipient, channel)`, encrypts, stores
the record, bumps the rate counter, and attempts delivery. All five channel
adapters of the source are stubs that return without throwing (their provider
keys are unset), so the delivery attempt always stamps `sentAt` and sets the
status to `sent`. User preferences are stored by `setUserPreferences` but
never read on the send path. -/

namespace Notifier

/-- `NotificationChannel`. -/
inductive Channel where
  | sms
  | push
  | whatsapp
  | ussd
  | email
deriving DecidableEq, Repr

/-- Channel name as used in the rate-limit key. -/
def channelName : Channel → String
  | .sms => "sms"
  | .push => "push"
  | .whatsapp => "whatsapp"
  | .ussd => "ussd"
  | .email => "email"

/-- `NotificationPriority`. -/
inductive Priority where
  | low
  | normal
  | high
  | critical
deriving DecidableEq, Repr

/-- `NotificationRecord.status`. -/
inductive NStatus where
  | pending
  | sent
  | delivered
  | read
  | failed
deriving DecidableEq, Repr

/-- `NotificationRecord`. -/
structure NotificationRecord where
  id : String
  recipientId : String
  channel : Channel
  priority : Priority
  templateId : String
  contentEncrypted : Crypto.Ciphertext
  scheduledAt : Nat
  sentAt : Option Nat
  status : NStatus
  retryCount : Nat
  maxRetries : Nat
deriving DecidableEq, Repr

/-- Per-user channel preferences (`setUserPreferences`). -/
structure Prefs where
  channels : List Channel
  quiet : Option (String × String)
deriving DecidableEq, Repr

/-- A rate-limit bucket. -/
structure RateLimitEntry where
  count : Nat
  resetAt : Nat
deriving DecidableEq, Repr

/-- The notifier module's stores. -/
structure NState where
  notificationStore : List (String × NotificationRecord)
  userPreferences : List (String × Prefs)
  rateLimitStore : List (String × RateLimitEntry)
deriving Repr

/-- Empty stores at module load. -/
def initNotifier : NState :=
  ⟨[], [], []⟩

/-- `setUserPreferences(userId, channels, quiet?)`. -/
def setUserPreferences (s : NState) (userId : String) (channels : List Channel)
    (quiet : Option (String × String)) : NState :=
  { s with userPreferences := setA userId ⟨channels, quiet⟩ s.userPreferences }

/-- The rate-limit refusal condition of `sendNotification`:
`rateLimit && rateLimit.resetAt > new Date() && rateLimit.count >= 10`. -/
def rateLimited (s : NState) (key : String) (now : Nat) : Bool :=
  match lookupA key s.rateLimitStore with
  | some entry => decide (now < entry.resetAt) && decide (entry.count ≥ 10)
  | none => false

/-- `sendNotification(recipientId, channel, templateId, content, priority)`:
throw `Rate limited` when the bucket refuses; otherwise encrypt, store a
`pending` record, bump the bucket, and run the delivery attempt, which (with
the stub adapters of the source) always succeeds and stores the record with
status `sent`. User preferences are never consulted. -/
def sendNotification (s : NState) (recipientId : String) (channel : Channel)
    (templateId content : String) (priority : Priority) (freshId iv : String) (now : Nat) :
    Except String (NotificationRecord × NState) :=
  let rateLimitKey := "notify:" ++ recipientId ++ ":" ++ channelName channel
  if rateLimited s rateLimitKey now then
    .error "Rate limited"
  else
    let record : NotificationRecord :=
      { id := freshId, recipientId, channel, priority, templateId,
        contentEncrypted := Crypto.encrypt content recipientId iv,
        scheduledAt := now, sentAt := none, status := .pending,
        retryCount := 0, maxRetries := 5 }
    let buckets := match lookupA rateLimitKey s.rateLimitStore with
      | some entry => setA rateLimitKey { entry with count := entry.count + 1 } s.rateLimitStore
      | none => setA rateLimitKey ⟨1, now + 60000⟩ s.rateLimitStore
    let sent := { record with sentAt := some now, status := .sent }
    .ok (sent,
      { s with
        notificationStore := setA freshId sent s.notificationStore,
        rateLimitStore := buckets })

end Notifier

end Kenyaship

namespace Kenyaship

theorem lookupA_setA_same {α : Type} (k : String) (v : α) (m : List (String × α)) :
    lookupA k (setA k v m) = some v := by
  induction m with
  | nil => simp [setA, lookupA]
  | cons hd tl ih =>
    obtain ⟨k₁, v₁⟩ := hd
    by_cases h : k₁ = k
    · simp [setA, h, lookupA]
    · simp [setA, h, lookupA, ih]

theorem lookupA_setA_other {α : Type} (k k₂ : String) (v : α) (m : List (String × α))
    (h : k₂ ≠ k) : lookupA k (setA k₂ v m) = lookupA k m := by
  induction m with
  | nil => simp [setA, lookupA, h]
  | cons hd tl ih =>
    obtain ⟨k₁, v₁⟩ := hd
    by_cases h₁ : k₁ = k₂
    · subst h₁
      simp [setA, lookupA, h, ih]
    · simp [setA, h₁, lookupA, ih]

/-- Membership after a `setA`: the new pair or an old one. -/
theorem mem_setA {α : Type} {x : String × α} {k : String} {v : α} {m : List (String × α)}
    (h : x ∈ setA k v m) : x = (k, v) ∨ x ∈ m := by
  induction m with
  | nil => simpa [setA] using h
  | cons hd tl ih =>
    obtain ⟨k₁, v₁⟩ := hd
    by_cases h₁ : k₁ = k
    · simp [setA, h₁] at h
      rcases h with h | h
      · exact Or.inl h
      · exact Or.inr (List.mem_cons_of_mem _ h)
    · simp [setA, h₁] at h
      rcases h with h | h
      · exact Or.inr (by simp [h])
      · rcases ih h with h₂ | h₂
        · exact Or.inl h₂
        · exact Or.inr (List.mem_cons_of_mem _ h₂)

/-- `updateVerification` touches only the verification store. -/
theorem updateVerification_otpStore (s : Verifier.VerifierState) (d : String)
    (m : Verifier.Method) (now : Nat) :
    (Verifier.updateVerification s d m now).otpStore = s.otpStore := by
  unfold Verifier.updateVerification
  cases lookupA d s.verificationStore <;> rfl

/-- C1: the panic button is not idempotent within the non-resolved window.
Evaluated at the failing input (driver `U1`, two successive panics, no
resolution between them): after the first call the driver's active emergency
exists with the non-resolved status `responding`, yet the second call returns
a record with a fresh id and the store holds two records — because
`initiateEmergencyResponse` has already moved the first record past the
`status === 'triggered'` guard that was meant to return it. -/
theorem triggerPanicButton_second_panic_new_record :
    (Emergency.getActiveEmergency
        (Emergency.triggerPanicButton Emergency.initEmergency "U1" ⟨-13/10, 184/5⟩
          (some "D3") "em-1" 0).2 "U1").map (fun e => e.status) =
      some .responding ∧
    some Emergency.EStatus.responding ≠ some .resolved ∧
    (Emergency.triggerPanicButton
        (Emergency.triggerPanicButton Emergency.initEmergency "U1" ⟨-13/10, 184/5⟩
          (some "D3") "em-1" 0).2
        "U1" ⟨-13/10, 184/5⟩ (some "D3") "em-2" 60000).1.id = "em-2" ∧
    "em-2" ≠ "em-1" ∧
    (Emergency.triggerPanicButton
        (Emergency.triggerPanicButton Emergency.initEmergency "U1" ⟨-13/10, 184/5⟩
          (some "D3") "em-1" 0).2
        "U1" ⟨-13/10, 184/5⟩ (some "D3") "em-2" 60000).2.emergencyStore.length = 2 := by
  refine ⟨by decide, by decide, by decide, by decide, by decide⟩

/-- C2 counterexample: in the reachable state where the only OTP record of
delivery `D1` has been consumed by a successful verification, replaying the
same (still time-valid) token returns reason `no_pending_otp` — not the
claimed `invalid_otp`. -/
theorem verifyOTP_replay_counterexample :
    (Verifier.verifyOTP
        (Verifier.runV
          [.initVer "D1" "v1" [.otp],
           .genOTP "D1" "R1" "sec" "o1" "123456" "iv1" 0,
           .verify "D1" "123456" (fun t s => t == "123456" && s == "sec") 1000])
        "D1" "123456" (fun t s => t == "123456" && s == "sec") 2000).1 =
      ⟨false, some "no_pending_otp", none⟩ ∧
    (⟨false, some "no_pending_otp", none⟩ : Verifier.OTPVerifyResult) ≠
      ⟨false, some "invalid_otp", none⟩ := by
  exact ⟨by decide, by decide⟩

/-- C2 (amended): `verifyOTP` increments `attemptCount` on every call that
reaches the token comparison, including the successful one; and a replay
against a consumed (verified) record is filtered out of the pending-record
lookup, returning `valid:false` with reason `no_pending_otp` — not success,
and not `invalid_otp`. -/
theorem verifyOTP_increments_and_replay :
    (∀ (s : Verifier.VerifierState) (d token : String)
        (tv : String → String → Bool) (now : Nat) (sec : String) (r : Verifier.OTPRecord),
      lookupA d s.deliverySecrets = some sec →
      (s.otpStore.map Prod.snd).find? (fun q => q.deliveryId == d && !q.isVerified) = some r →
      ¬ r.expiresAt < now →
      r.attemptCount < 5 →
      ∃ r₁, lookupA r.id (Verifier.verifyOTP s d token tv now).2.otpStore = some r₁ ∧
        r₁.attemptCount = r.attemptCount + 1) ∧
    (∀ (s : Verifier.VerifierState) (d token : String)
        (tv : String → String → Bool) (now : Nat) (sec : String),
      lookupA d s.deliverySecrets = some sec →
      (∀ q ∈ s.otpStore, q.2.deliveryId = d → q.2.isVerified = true) →
      (Verifier.verifyOTP s d token tv now).1 = ⟨false, some "no_pending_otp", none⟩) := by
  constructor
  · intro s d token tv now sec r h₁ h₂ h₃ h₄
    unfold Verifier.verifyOTP
    rw [h₁]
    simp only [h₂]
    rw [if_neg h₃, if_neg (by omega)]
    by_cases htv : tv token sec
    · simp only [htv, if_true]
      rw [updateVerification_otpStore]
      exact ⟨_, lookupA_setA_same _ _ _, rfl⟩
    · simp only [htv, if_false]
      exact ⟨_, lookupA_setA_same _ _ _, rfl⟩
  · intro s d token tv now sec h₁ h₂
    have hf : (s.otpStore.map Prod.snd).find?
        (fun q => q.deliveryId == d && !q.isVerified) = none := by
      apply List.find?_eq_none.mpr
      intro q hq
      simp only [List.mem_map] at hq
      obtain ⟨p, hp, rfl⟩ := hq
      by_cases hd : p.2.deliveryId = d
      · simp [hd, h₂ p hp hd]
      · simp [hd]
    unfold Verifier.verifyOTP
    rw [h₁]
    simp only [hf]

/-- Witness for the amended C2 at a concrete reachable state: a failed attempt
bumps the count from 0 to 1, and the replay after success reports
`no_pending_otp`. -/
theorem verifyOTP_increments_and_replay_witness :
    (∃ r₁, lookupA "o1"
        (Verifier.verifyOTP
          (Verifier.runV [.initVer "D1" "v1" [.otp],
            .genOTP "D1" "R1" "sec" "o1" "123456" "iv1" 0])
          "D1" "000000" (fun t s => t == "123456" && s == "sec") 1000).2.otpStore = some r₁ ∧
      r₁.attemptCount = 0 + 1) ∧
    (Verifier.verifyOTP
        (Verifier.runV [.initVer "D1" "v1" [.otp],
          .genOTP "D1" "R1" "sec" "o1" "123456" "iv1" 0,
          .verify "D1" "123456" (fun t s => t == "123456" && s == "sec") 1000])
        "D1" "123456" (fun t s => t == "123456" && s == "sec") 2000).1 =
      ⟨false, some "no_pending_otp", none⟩ := by
  constructor
  · exact verifyOTP_increments_and_replay.1
      (Verifier.runV [.initVer "D1" "v1" [.otp],
        .genOTP "D1" "R1" "sec" "o1" "123456" "iv1" 0])
      "D1" "000000" (fun t s => t == "123456" && s == "sec") 1000 "sec"
      { id := "o1", deliveryId := "D1", recipientId := "R1",
        otpEncrypted := Crypto.encrypt "123456" "D1" "iv1",
        expiresAt := 300000, createdAt := 0, attemptCount := 0,
        isVerified := false, verifiedAt := none }
      (by decide) (by decide) (by decide) (by decide)
  · exact verifyOTP_increments_and_replay.2
      (Verifier.runV [.initVer "D1" "v1" [.otp],
        .genOTP "D1" "R1" "sec" "o1" "123456" "iv1" 0,
        .verify "D1" "123456" (fun t s => t == "123456" && s == "sec") 1000])
      "D1" "123456" (fun t s => t == "123456" && s == "sec") 2000 "sec"
      (by decide) (by decide)

/-- `pushMethod` keeps the completion flag. -/
theorem pushMethod_isComplete (v : Verifier.DeliveryVerification) (m : Verifier.Method) :
    (Verifier.pushMethod v m).isComplete = v.isComplete := by
  unfold Verifier.pushMethod
  split <;> rfl

/-- `pushMethod` keeps the required-methods set. -/
theorem pushMethod_methodsRequired (v : Verifier.DeliveryVerification) (m : Verifier.Method) :
    (Verifier.pushMethod v m).methodsRequired = v.methodsRequired := by
  unfold Verifier.pushMethod
  split <;> rfl

/-- `applyMethod` never clears an already-set completion flag. -/
theorem applyMethod_preserves_complete (v : Verifier.DeliveryVerification)
    (m : Verifier.Method) (now : Nat) (h : v.isComplete = true) :
    (Verifier.applyMethod v m now).isComplete = true := by
  unfold Verifier.applyMethod
  rw [pushMethod_isComplete, h]
  simp [pushMethod_isComplete, h]

/-- `applyMethod` keeps the required-methods set. -/
theorem applyMethod_methodsRequired (v : Verifier.DeliveryVerification)
    (m : Verifier.Method) (now : Nat) :
    (Verifier.applyMethod v m now).methodsRequired = v.methodsRequired := by
  unfold Verifier.applyMethod
  split
  · exact pushMethod_methodsRequired v m
  · exact pushMethod_methodsRequired v m

/-- After `applyMethod`, a record whose required set is contained in its
completed set is marked complete. -/
theorem applyMethod_subset_complete (v : Verifier.DeliveryVerification)
    (m : Verifier.Method) (now : Nat)
    (hsub : ∀ x ∈ (Verifier.applyMethod v m now).methodsRequired,
      x ∈ (Verifier.applyMethod v m now).methodsCompleted) :
    (Verifier.applyMethod v m now).isComplete = true := by
  unfold Verifier.applyMethod at hsub ⊢
  generalize Verifier.pushMethod v m = w at hsub ⊢
  by_cases hcond :
      (w.methodsRequired.all (fun x => w.methodsCompleted.contains x) && !w.isComplete) = true
  · rw [if_pos hcond]
  · rw [if_neg hcond] at hsub ⊢
    have hall : w.methodsRequired.all (fun x => w.methodsCompleted.contains x) = true :=
      List.all_eq_true.mpr (fun x hx => List.elem_iff.mpr (hsub x hx))
    cases hB : w.isComplete
    · exact absurd (by rw [hall, hB]; rfl) hcond
    · rfl

/-- `updateVerification` never clears the completion flag of any stored record. -/
theorem updateVerification_preserves_complete {s : Verifier.VerifierState} {d₁ : String}
    {m : Verifier.Method} {now : Nat} {d : String}
    (h : (lookupA d s.verificationStore).map (fun v => v.isComplete) = some true) :
    (lookupA d (Verifier.updateVerification s d₁ m now).verificationStore).map
      (fun v => v.isComplete) = some true := by
  unfold Verifier.updateVerification
  cases hl : lookupA d₁ s.verificationStore with
  | none => exact h
  | some v =>
    by_cases hd : d₁ = d
    · subst hd
      rw [hl] at h
      simp only [Option.map_some'] at h
      have hv : v.isComplete = true := by simpa using h
      show (lookupA d₁ (setA d₁ (Verifier.applyMethod v m now) s.verificationStore)).map
        (fun w => w.isComplete) = some true
      rw [lookupA_setA_same]
      simp [applyMethod_preserves_complete v m now hv]
    · show (lookupA d (setA d₁ (Verifier.applyMethod v m now) s.verificationStore)).map
        (fun w => w.isComplete) = some true
      rw [lookupA_setA_other _ _ _ _ hd]
      exact h

/-- `createFallbackVerification` never clears the completion flag of any
stored record (it can only set it). -/
theorem fallback_preserves_complete {s : Verifier.VerifierState} {d₁ code : String}
    {now : Nat} {d : String}
    (h : (lookupA d s.verificationStore).map (fun v => v.isComplete) = some true) :
    (lookupA d (Verifier.createFallbackVerification s d₁ code now).2.verificationStore).map
      (fun v => v.isComplete) = some true := by
  unfold Verifier.createFallbackVerification
  by_cases hvalid : strToUpper code = strToUpper ((Hashing.hmacSha256 d₁ Verifier.hmacSecret).take 8)
  · simp only [hvalid, if_true]
    cases hl : lookupA d₁ s.verificationStore with
    | none => exact h
    | some v =>
      by_cases hd : d₁ = d
      · subst hd
        show (lookupA d₁ (setA d₁ _ s.verificationStore)).map (fun w => w.isComplete) = some true
        rw [lookupA_setA_same]
        rfl
      · show (lookupA d (setA d₁ _ s.verificationStore)).map (fun w => w.isComplete) = some true
        rw [lookupA_setA_other _ _ _ _ hd]
        exact h
  · simp only [hvalid, if_false]
    exact h

/-- C4 counterexample: completeness is not preserved by re-initialization. A
delivery whose verification is complete (`fallback` succeeded) is reset to
`complete = false` by a second `initializeVerification` for the same delivery
id. -/
theorem verification_reinit_clears_complete_counterexample :
    (Verifier.getVerificationStatus
        (Verifier.runV [.initVer "D5" "v5" [.otp],
          .fallback "D5" (strToUpper ((Hashing.hmacSha256 "D5" Verifier.hmacSecret).take 8)) 500])
        "D5").map (fun v => v.isComplete) = some true ∧
    (Verifier.getVerificationStatus
        (Verifier.runV [.initVer "D5" "v5" [.otp],
          .fallback "D5" (strToUpper ((Hashing.hmacSha256 "D5" Verifier.hmacSecret).take 8)) 500,
          .initVer "D5" "v6" [.otp]])
        "D5").map (fun v => v.isComplete) = some false := by
  exact ⟨by decide, by decide⟩

/-- C4 (amended): completeness is monotone under every public verifier
operation except `initializeVerification`: once the stored record of a
delivery has `complete = true`, `verifyOTP`, `storeDeliveryPhoto`,
`storeSignature`, `verifyGeofence` and `createFallbackVerification` keep it
`true`; `initializeVerification` instead replaces the record with a fresh
incomplete one. -/
theorem verification_complete_monotone_amended (s : Verifier.VerifierState)
    (op : Verifier.VOp) (d : String) (hop : op.isInit = false)
    (h : (Verifier.getVerificationStatus s d).map (fun v => v.isComplete) = some true) :
    (Verifier.getVerificationStatus (Verifier.stepV s op) d).map
      (fun v => v.isComplete) = some true := by
  cases op with
  | initVer d₁ f req => simp [Verifier.VOp.isInit] at hop
  | genOTP d₁ r fs fi tok iv now => exact h
  | photo d₁ data fi iv now => exact updateVerification_preserves_complete h
  | sign d₁ data fi iv now => exact updateVerification_preserves_complete h
  | geofence d₁ dist rad now =>
    show (lookupA d (Verifier.verifyGeofence s d₁ dist rad now).2.verificationStore).map
      (fun v => v.isComplete) = some true
    unfold Verifier.verifyGeofence
    by_cases hin : dist ≤ rad
    · simp only [hin, if_true]
      exact updateVerification_preserves_complete h
    · simp only [hin, if_false]
      exact h
  | fallback d₁ code now => exact fallback_preserves_complete h
  | verify d₁ tok tv now =>
    show (lookupA d (Verifier.verifyOTP s d₁ tok tv now).2.verificationStore).map
      (fun v => v.isComplete) = some true
    unfold Verifier.verifyOTP
    split
    · exact h
    split
    · exact h
    split
    · exact h
    split
    · exact h
    dsimp only
    split
    · exact updateVerification_preserves_complete h
    · exact h

/-- Witness for the amended C4: a complete verification stays complete through
a subsequent `storeDeliveryPhoto`. -/
theorem verification_complete_monotone_amended_witness :
    (Verifier.getVerificationStatus
        (Verifier.stepV
          (Verifier.runV [.initVer "D5" "v5" [.otp],
            .fallback "D5" (strToUpper ((Hashing.hmacSha256 "D5" Verifier.hmacSecret).take 8)) 500])
          (.photo "D5" "jpegdata" "p1" "iv9" 600))
        "D5").map (fun v => v.isComplete) = some true :=
  verification_complete_monotone_amended
    (Verifier.runV [.initVer "D5" "v5" [.otp],
      .fallback "D5" (strToUpper ((Hashing.hmacSha256 "D5" Verifier.hmacSecret).take 8)) 500])
    (.photo "D5" "jpegdata" "p1" "iv9" 600) "D5" (by decide) (by decide)

/-- Storing `applyMethod`'s result preserves the subset-implies-complete
property of the store. -/
theorem subsetComplete_setA_applyMethod {store : List (String × Verifier.DeliveryVerification)}
    (h : Verifier.SubsetCompleteStore store) (d₁ : String)
    (v : Verifier.DeliveryVerification) (m : Verifier.Method) (now : Nat) :
    Verifier.SubsetCompleteStore (setA d₁ (Verifier.applyMethod v m now) store) := by
  intro d w hw hne hsub
  by_cases hd : d₁ = d
  · subst hd
    rw [lookupA_setA_same] at hw
    obtain rfl := (Option.some.inj hw).symm
    exact applyMethod_subset_complete v m now hsub
  · rw [lookupA_setA_other _ _ _ _ hd] at hw
    exact h d w hw hne hsub

/-- `updateVerification` preserves the subset-implies-complete property. -/
theorem subsetComplete_updateVerification {s : Verifier.VerifierState}
    (h : Verifier.SubsetCompleteStore s.verificationStore) (d₁ : String)
    (m : Verifier.Method) (now : Nat) :
    Verifier.SubsetCompleteStore (Verifier.updateVerification s d₁ m now).verificationStore := by
  unfold Verifier.updateVerification
  cases hl : lookupA d₁ s.verificationStore with
  | none => exact h
  | some v => exact subsetComplete_setA_applyMethod h d₁ v m now

/-- `initializeVerification` preserves the subset-implies-complete property:
the fresh record has an empty completed list, so a nonempty required set is
never contained in it. -/
theorem subsetComplete_initVer {store : List (String × Verifier.DeliveryVerification)}
    (h : Verifier.SubsetCompleteStore store) (d₁ f : String)
    (req : List Verifier.Method) :
    Verifier.SubsetCompleteStore
      (setA d₁ ⟨f, d₁, req, [], false, none⟩ store) := by
  intro d w hw hne hsub
  by_cases hd : d₁ = d
  · subst hd
    rw [lookupA_setA_same] at hw
    obtain rfl := (Option.some.inj hw).symm
    obtain ⟨x, hx⟩ := List.exists_mem_of_ne_nil _ hne
    exact absurd (hsub x hx) (List.not_mem_nil x)
  · rw [lookupA_setA_other _ _ _ _ hd] at hw
    exact h d w hw hne hsub

/-- `createFallbackVerification` preserves the subset-implies-complete
property (on success it stores a record that is already complete). -/
theorem subsetComplete_fallback {s : Verifier.VerifierState}
    (h : Verifier.SubsetCompleteStore s.verificationStore) (d₁ code : String) (now : Nat) :
    Verifier.SubsetCompleteStore
      (Verifier.createFallbackVerification s d₁ code now).2.verificationStore := by
  unfold Verifier.createFallbackVerification
  dsimp only
  split
  · cases hl : lookupA d₁ s.verificationStore with
    | none => exact h
    | some v =>
      intro d w hw hne hsub
      have hw₁ : lookupA d (setA d₁
          { v with
            isComplete := true,
            completedAt := some now,
            methodsCompleted := [Verifier.Method.code] } s.verificationStore) = some w := hw
      by_cases hd : d₁ = d
      · subst hd
        rw [lookupA_setA_same] at hw₁
        obtain rfl := (Option.some.inj hw₁).symm
        rfl
      · rw [lookupA_setA_other _ _ _ _ hd] at hw₁
        exact h d w hw₁ hne hsub
  · exact h

/-- Every public verifier operation preserves the subset-implies-complete
property of the verification store. -/
theorem subsetComplete_stepV {s : Verifier.VerifierState}
    (h : Verifier.SubsetCompleteStore s.verificationStore) (op : Verifier.VOp) :
    Verifier.SubsetCompleteStore (Verifier.stepV s op).verificationStore := by
  cases op with
  | initVer d₁ f req => exact subsetComplete_initVer h d₁ f req
  | genOTP d₁ r fs fi tok iv now => exact h
  | photo d₁ data fi iv now =>
    refine subsetComplete_updateVerification ?_ d₁ .photo now
    exact h
  | sign d₁ data fi iv now =>
    refine subsetComplete_updateVerification ?_ d₁ .signature now
    exact h
  | fallback d₁ code now => exact subsetComplete_fallback h d₁ code now
  | geofence d₁ dist rad now =>
    show Verifier.SubsetCompleteStore
      (Verifier.verifyGeofence s d₁ dist rad now).2.verificationStore
    unfold Verifier.verifyGeofence
    dsimp only
    split
    · exact subsetComplete_updateVerification h d₁ .geofence now
    · exact h
  | verify d₁ tok tv now =>
    show Verifier.SubsetCompleteStore
      (Verifier.verifyOTP s d₁ tok tv now).2.verificationStore
    unfold Verifier.verifyOTP
    split
    · exact h
    split
    · exact h
    split
    · exact h
    split
    · exact h
    dsimp only
    split
    · refine subsetComplete_updateVerification ?_ d₁ .otp now
      exact h
    · exact h

/-- The subset-implies-complete property holds after any operation sequence
from the empty stores. -/
theorem subsetComplete_runV_aux : ∀ (ops : List Verifier.VOp) (s : Verifier.VerifierState),
    Verifier.SubsetCompleteStore s.verificationStore →
    Verifier.SubsetCompleteStore (ops.foldl Verifier.stepV s).verificationStore
  | [], _, h => h
  | op :: ops, _, h => subsetComplete_runV_aux ops _ (subsetComplete_stepV h op)

/-- C5 counterexample: after `initialize(D5, [otp])` and a successful
`fallback`, the stored record has `complete = true` while the required set
`[otp]` is not contained in the completed set `[code]` — so
`complete ⇔ required ⊆ completed` fails as stated. -/
theorem complete_iff_subset_counterexample :
    (Verifier.getVerificationStatus
        (Verifier.runV [.initVer "D5" "v5" [.otp],
          .fallback "D5" (strToUpper ((Hashing.hmacSha256 "D5" Verifier.hmacSecret).take 8)) 500])
        "D5").map (fun v => v.isComplete) = some true ∧
    (Verifier.getVerificationStatus
        (Verifier.runV [.initVer "D5" "v5" [.otp],
          .fallback "D5" (strToUpper ((Hashing.hmacSha256 "D5" Verifier.hmacSecret).take 8)) 500])
        "D5").map
      (fun v => decide (∀ m ∈ v.methodsRequired, m ∈ v.methodsCompleted)) = some false := by
  exact ⟨by decide, by decide⟩

/-- C5 (amended): after any operation sequence, every stored record with a
nonempty required set satisfies `required ⊆ completed → complete`; a
successful fallback stores the record with `complete = true` and
`completed = [code]` regardless of the required set, which is where the
reverse implication of the claimed equivalence fails. -/
theorem subset_implies_complete_and_fallback :
    (∀ (ops : List Verifier.VOp) (d : String) (v : Verifier.DeliveryVerification),
      Verifier.getVerificationStatus (Verifier.runV ops) d = some v →
      v.methodsRequired ≠ [] →
      (∀ m ∈ v.methodsRequired, m ∈ v.methodsCompleted) →
      v.isComplete = true) ∧
    (∀ (s : Verifier.VerifierState) (d code : String) (now : Nat)
        (v : Verifier.DeliveryVerification),
      (Verifier.createFallbackVerification s d code now).1 = true →
      lookupA d s.verificationStore = some v →
      lookupA d (Verifier.createFallbackVerification s d code now).2.verificationStore =
        some { v with
          isComplete := true,
          completedAt := some now,
          methodsCompleted := [Verifier.Method.code] }) := by
  constructor
  · intro ops d v hv hne hsub
    refine subsetComplete_runV_aux ops Verifier.initVerifier ?_ d v hv hne hsub
    intro d₁ w hw
    simp [lookupA] at hw
  · intro s d code now v hval hv
    unfold Verifier.createFallbackVerification at hval ⊢
    dsimp only at hval ⊢
    split at hval
    · rename_i hcode
      rw [if_pos hcode, hv]
      show lookupA d (setA d _ s.verificationStore) = some _
      rw [lookupA_setA_same]
    · simp at hval

/-- Witness for the amended C5: the OTP-only happy path yields a record whose
required set is contained in its completed set and which is indeed complete;
and a concrete successful fallback stores the completed `[code]` record. -/
theorem subset_implies_complete_and_fallback_witness :
    ({ id := "v1", deliveryId := "D1", methodsRequired := [Verifier.Method.otp],
       methodsCompleted := [Verifier.Method.otp], isComplete := true,
       completedAt := some 1000 } : Verifier.DeliveryVerification).isComplete = true ∧
    lookupA "D5"
        (Verifier.createFallbackVerification
          (Verifier.runV [.initVer "D5" "v5" [.otp]])
          "D5" (strToUpper ((Hashing.hmacSha256 "D5" Verifier.hmacSecret).take 8))
          500).2.verificationStore =
      some {
        id := "v5",
        deliveryId := "D5",
        methodsRequired := [Verifier.Method.otp],
        methodsCompleted := [Verifier.Method.code],
        isComplete := true,
        completedAt := some 500 } := by
  constructor
  · exact subset_implies_complete_and_fallback.1
      [.initVer "D1" "v1" [.otp],
       .genOTP "D1" "R1" "sec" "o1" "123456" "iv1" 0,
       .verify "D1" "123456" (fun t s => t == "123456" && s == "sec") 1000]
      "D1"
      { id := "v1", deliveryId := "D1", methodsRequired := [Verifier.Method.otp],
        methodsCompleted := [Verifier.Method.otp], isComplete := true,
        completedAt := some 1000 }
      (by decide) (by decide) (by decide)
  · exact subset_implies_complete_and_fallback.2
      (Verifier.runV [.initVer "D5" "v5" [.otp]])
      "D5" (strToUpper ((Hashing.hmacSha256 "D5" Verifier.hmacSecret).take 8)) 500
      { id := "v5", deliveryId := "D5", methodsRequired := [Verifier.Method.otp],
        methodsCompleted := [], isComplete := false, completedAt := none }
      (by decide) (by decide)

/-- Every public verifier operation keeps every stored OTP record's
`attemptCount` at most 5. -/
theorem stepV_attemptBound {s : Verifier.VerifierState} (op : Verifier.VOp)
    (h : ∀ p ∈ s.otpStore, p.2.attemptCount ≤ 5) :
    ∀ p ∈ (Verifier.stepV s op).otpStore, p.2.attemptCount ≤ 5 := by
  cases op with
  | initVer d₁ f req => exact h
  | genOTP d₁ r fs fi tok iv now =>
    intro p hp
    have hp₁ : p ∈ setA fi
        { id := fi, deliveryId := d₁, recipientId := r,
          otpEncrypted := Crypto.encrypt tok d₁ iv,
          expiresAt := now + Verifier.otpTtlSeconds * 1000, createdAt := now,
          attemptCount := 0, isVerified := false, verifiedAt := none } s.otpStore := hp
    rcases mem_setA hp₁ with h₁ | h₁
    · subst h₁
      exact Nat.zero_le 5
    · exact h p h₁
  | photo d₁ data fi iv now =>
    show ∀ p ∈ (Verifier.storeDeliveryPhoto s d₁ data fi iv now).2.otpStore,
      p.2.attemptCount ≤ 5
    unfold Verifier.storeDeliveryPhoto
    dsimp only
    intro p hp
    rw [updateVerification_otpStore] at hp
    exact h p hp
  | sign d₁ data fi iv now =>
    show ∀ p ∈ (Verifier.storeSignature s d₁ data fi iv now).2.otpStore,
      p.2.attemptCount ≤ 5
    unfold Verifier.storeSignature
    dsimp only
    intro p hp
    rw [updateVerification_otpStore] at hp
    exact h p hp
  | geofence d₁ dist rad now =>
    show ∀ p ∈ (Verifier.verifyGeofence s d₁ dist rad now).2.otpStore, p.2.attemptCount ≤ 5
    unfold Verifier.verifyGeofence
    dsimp only
    split
    · intro p hp
      rw [updateVerification_otpStore] at hp
      exact h p hp
    · exact h
  | fallback d₁ code now =>
    show ∀ p ∈ (Verifier.createFallbackVerification s d₁ code now).2.otpStore,
      p.2.attemptCount ≤ 5
    unfold Verifier.createFallbackVerification
    dsimp only
    split
    · split
      · exact h
      · exact h
    · exact h
  | verify d₁ tok tv now =>
    show ∀ p ∈ (Verifier.verifyOTP s d₁ tok tv now).2.otpStore, p.2.attemptCount ≤ 5
    unfold Verifier.verifyOTP
    split
    · exact h
    split
    · exact h
    split
    · exact h
    split
    · exact h
    rename_i osec sec hsec ofind r hfind hexp hcap
    dsimp only
    split
    · intro p hp
      rw [updateVerification_otpStore] at hp
      rcases mem_setA hp with h₁ | h₁
      · subst h₁
        show r.attemptCount + 1 ≤ 5
        omega
      · exact h p h₁
    · intro p hp
      rcases mem_setA hp with h₁ | h₁
      · subst h₁
        show r.attemptCount + 1 ≤ 5
        omega
      · exact h p h₁

/-- The attempt bound holds after any operation sequence from the empty
stores. -/
theorem attemptBound_runV_aux : ∀ (ops : List Verifier.VOp) (s : Verifier.VerifierState),
    (∀ p ∈ s.otpStore, p.2.attemptCount ≤ 5) →
    ∀ p ∈ (ops.foldl Verifier.stepV s).otpStore, p.2.attemptCount ≤ 5
  | [], _, h => h
  | op :: ops, _, h => attemptBound_runV_aux ops _ (stepV_attemptBound op h)

/-- C6: for every delivery, `attemptCount` never exceeds 5 (after any sequence
of public operations); and in the S2 scenario, six successive wrong
`verifyOTP` calls return `invalid_otp` with `remaining` counting down 4..0 on
the first five and `max_attempts_exceeded` on the sixth, after which even the
correct token still returns `max_attempts_exceeded`. -/
theorem otp_attempt_bound_and_bruteforce :
    (∀ (ops : List Verifier.VOp) (p : String × Verifier.OTPRecord),
      p ∈ (Verifier.runV ops).otpStore → p.2.attemptCount ≤ 5) ∧
    (List.range 6).map (fun i =>
        (Verifier.verifyOTP (Verifier.runV (Verifier.bruteOps i)) "D2" "000000"
          Verifier.bruteTotp (100 + i)).1) =
      [⟨false, some "invalid_otp", some 4⟩, ⟨false, some "invalid_otp", some 3⟩,
       ⟨false, some "invalid_otp", some 2⟩, ⟨false, some "invalid_otp", some 1⟩,
       ⟨false, some "invalid_otp", some 0⟩,
       ⟨false, some "max_attempts_exceeded", some 0⟩] ∧
    (Verifier.verifyOTP (Verifier.runV (Verifier.bruteOps 6)) "D2" "111111"
        Verifier.bruteTotp 900).1 =
      ⟨false, some "max_attempts_exceeded", some 0⟩ := by
  refine ⟨?_, by decide, by decide⟩
  intro ops p hp
  refine attemptBound_runV_aux ops Verifier.initVerifier ?_ p hp
  intro q hq
  exact absurd hq (List.not_mem_nil q)

/-- A key absent from the key list is not found by `lookupA`. -/
theorem lookupA_eq_none_of_not_mem {β : Type} (k : String) (l : List (String × β))
    (h : k ∉ l.map Prod.fst) : lookupA k l = none := by
  induction l with
  | nil => rfl
  | cons hd tl ih =>
    obtain ⟨k₁, v⟩ := hd
    simp only [List.map_cons, List.mem_cons, not_or] at h
    show (if k₁ = k then some v else lookupA k tl) = none
    rw [if_neg (fun hk => h.1 hk.symm)]
    exact ih h.2

/-- Counting emissions into a room: each member socket receives the event
once (for a duplicate-free room). -/
theorem countP_room_emit (socks : List String) (sid : String) (e : Broadcast.RTEvent)
    (hnd : socks.Nodup) :
    (socks.map (fun x => (x, e))).countP (fun q => q.1 == sid) =
      if socks.contains sid then 1 else 0 := by
  induction socks with
  | nil => rfl
  | cons hd tl ih =>
    simp only [List.nodup_cons] at hnd
    obtain ⟨hh, hnd₁⟩ := hnd
    rw [List.map_cons, List.countP_cons, ih hnd₁]
    by_cases hhs : hd = sid
    · subst hhs
      simp [hh]
    · have h₁ : ((hd, e).1 == sid) = false := by
        simp [hhs]
      simp [h₁, Ne.symm hhs]

/-- Counting emissions of the per-client loops of `broadcast`: a session whose
identity matches the predicate receives the event exactly once (for a
duplicate-free session table). -/
theorem countP_clients_emit (clients : List (String × Broadcast.Client)) (sid : String)
    (pred : Broadcast.Client → Bool) (e : Broadcast.RTEvent)
    (hnd : (clients.map Prod.fst).Nodup) :
    ((clients.filter (fun c => pred c.2)).map (fun c => (c.1, e))).countP
        (fun q => q.1 == sid) =
      (match lookupA sid clients with
        | some c => if pred c then 1 else 0
        | none => 0) := by
  induction clients with
  | nil => rfl
  | cons hd tl ih =>
    obtain ⟨k, c⟩ := hd
    simp only [List.map_cons, List.nodup_cons] at hnd
    obtain ⟨hk, hnd₁⟩ := hnd
    by_cases hks : k = sid
    · subst hks
      have htl : lookupA k tl = none := lookupA_eq_none_of_not_mem k tl hk
      have hlk : lookupA k ((k, c) :: tl) = some c := by
        show (if k = k then some c else lookupA k tl) = some c
        rw [if_pos rfl]
      rw [hlk]
      by_cases hp : pred c
      · rw [List.filter_cons, if_pos (show pred (k, c).2 = true from hp), List.map_cons,
          List.countP_cons, ih hnd₁, htl]
        dsimp only
        simp [hp]
      · rw [List.filter_cons, if_neg (show ¬ pred (k, c).2 = true from hp), ih hnd₁, htl]
        dsimp only
        rw [if_neg hp]
    · have hlk : lookupA sid ((k, c) :: tl) = lookupA sid tl := by
        show (if k = sid then some c else lookupA sid tl) = lookupA sid tl
        rw [if_neg hks]
      rw [hlk]
      by_cases hp : pred c
      · rw [List.filter_cons, if_pos (show pred (k, c).2 = true from hp), List.map_cons,
          List.countP_cons]
        dsimp only
        have hkey : (k == sid) = false := by
          simp [hks]
        rw [hkey, if_neg Bool.false_ne_true, Nat.add_zero, ih hnd₁]
      · rw [List.filter_cons, if_neg (show ¬ pred (k, c).2 = true from hp)]
        exact ih hnd₁

/-- C3 counterexample: a single `broadcast` call delivers the same event three
times to session `s1` when it is a member of the delivery room, belongs to a
listed user and holds a listed role — there is no de-duplication by
`eventId`. -/
theorem broadcast_duplicate_counterexample :
    ((Broadcast.broadcast
        ⟨[("s1", ⟨"u1", .dispatcher⟩)], [("d1", ["s1"])], []⟩
        ⟨"e1", "delivery:status_update",
          ⟨some "d1", ["u1"], [.dispatcher]⟩⟩).1.countP
      (fun q => q.1 == "s1")) = 3 ∧ ¬ (3 ≤ 1) := by
  exact ⟨by decide, by decide⟩

/-- C3 (amended): a single `broadcast` call delivers the event to a session
once per satisfied audience criterion — once for delivery-room membership,
once for a listed user id, once for a listed role — with no de-duplication,
so a session satisfying several criteria receives duplicates. -/
theorem broadcast_per_criterion (s : Broadcast.BState) (e : Broadcast.RTEvent)
    (sid : String)
    (hc : (s.clients.map Prod.fst).Nodup)
    (hr : ∀ d room, lookupA d s.deliveryRooms = some room → room.Nodup) :
    (Broadcast.broadcast s e).1.countP (fun q => q.1 == sid) =
      (if Broadcast.roomHit s e sid then 1 else 0) +
      (if Broadcast.userHit s e sid then 1 else 0) +
      (if Broadcast.roleHit s e sid then 1 else 0) := by
  unfold Broadcast.broadcast
  dsimp only
  rw [List.countP_append, List.countP_append]
  have hroom : List.countP (fun q : String × Broadcast.RTEvent => q.1 == sid)
      (match e.audience.deliveryId with
        | some d => ((lookupA d s.deliveryRooms).getD []).map (fun x => (x, e))
        | none => []) =
      if Broadcast.roomHit s e sid then 1 else 0 := by
    unfold Broadcast.roomHit
    cases e.audience.deliveryId with
    | none => rfl
    | some d =>
      apply countP_room_emit
      cases hl : lookupA d s.deliveryRooms with
      | none => exact List.nodup_nil
      | some room => simpa using hr d room hl
  have huser : List.countP (fun q : String × Broadcast.RTEvent => q.1 == sid)
      (if e.audience.userIds.isEmpty then []
        else (s.clients.filter (fun c => e.audience.userIds.contains c.2.userId)).map
          (fun c => (c.1, e))) =
      if Broadcast.userHit s e sid then 1 else 0 := by
    unfold Broadcast.userHit
    by_cases hempty : e.audience.userIds.isEmpty
    · rw [if_pos hempty]
      have he : e.audience.userIds = [] := List.isEmpty_iff.mp hempty
      rw [he]
      cases lookupA sid s.clients <;> rfl
    · rw [if_neg hempty]
      rw [countP_clients_emit s.clients sid
        (fun c => e.audience.userIds.contains c.userId) e hc]
      cases lookupA sid s.clients <;> rfl
  have hrole : List.countP (fun q : String × Broadcast.RTEvent => q.1 == sid)
      (if e.audience.roles.isEmpty then []
        else (s.clients.filter (fun c => e.audience.roles.contains c.2.role)).map
          (fun c => (c.1, e))) =
      if Broadcast.roleHit s e sid then 1 else 0 := by
    unfold Broadcast.roleHit
    by_cases hempty : e.audience.roles.isEmpty
    · rw [if_pos hempty]
      have he : e.audience.roles = [] := List.isEmpty_iff.mp hempty
      rw [he]
      cases lookupA sid s.clients <;> rfl
    · rw [if_neg hempty]
      rw [countP_clients_emit s.clients sid
        (fun c => e.audience.roles.contains c.role) e hc]
      cases lookupA sid s.clients <;> rfl
  rw [hroom, huser, hrole]

/-- Witness for the amended C3 at the concrete overlapping-audience state:
the per-criterion count evaluates to 1 + 1 + 1. -/
theorem broadcast_per_criterion_witness :
    (Broadcast.broadcast
        ⟨[("s1", ⟨"u1", .dispatcher⟩)], [("d1", ["s1"])], []⟩
        ⟨"e1", "delivery:status_update",
          ⟨some "d1", ["u1"], [.dispatcher]⟩⟩).1.countP (fun q => q.1 == "s1") =
      (if Broadcast.roomHit ⟨[("s1", ⟨"u1", .dispatcher⟩)], [("d1", ["s1"])], []⟩
          ⟨"e1", "delivery:status_update", ⟨some "d1", ["u1"], [.dispatcher]⟩⟩ "s1"
        then 1 else 0) +
      (if Broadcast.userHit ⟨[("s1", ⟨"u1", .dispatcher⟩)], [("d1", ["s1"])], []⟩
          ⟨"e1", "delivery:status_update", ⟨some "d1", ["u1"], [.dispatcher]⟩⟩ "s1"
        then 1 else 0) +
      (if Broadcast.roleHit ⟨[("s1", ⟨"u1", .dispatcher⟩)], [("d1", ["s1"])], []⟩
          ⟨"e1", "delivery:status_update", ⟨some "d1", ["u1"], [.dispatcher]⟩⟩ "s1"
        then 1 else 0) :=
  broadcast_per_criterion
    ⟨[("s1", ⟨"u1", .dispatcher⟩)], [("d1", ["s1"])], []⟩
    ⟨"e1", "delivery:status_update", ⟨some "d1", ["u1"], [.dispatcher]⟩⟩
    "s1" (by decide)
    (by
      intro d room hl
      simp only [lookupA] at hl
      split at hl
      · obtain rfl := (Option.some.inj hl).symm
        decide
      · simp at hl)

/-- `deleteA` only removes entries: every remaining entry was present. -/
theorem mem_deleteA {α : Type} {x : String × α} (k : String) :
    ∀ m : List (String × α), x ∈ deleteA k m → x ∈ m
  | [], h => by simp [deleteA] at h
  | (k₁, v₁) :: tl, h => by
    by_cases h₁ : k₁ = k
    · rw [show deleteA k ((k₁, v₁) :: tl) = tl by rw [deleteA, if_pos h₁]] at h
      exact List.mem_cons_of_mem _ h
    · rw [show deleteA k ((k₁, v₁) :: tl) = (k₁, v₁) :: deleteA k tl by
          rw [deleteA, if_neg h₁]] at h
      rcases List.mem_cons.mp h with h₂ | h₂
      · simp [h₂]
      · exact List.mem_cons_of_mem _ (mem_deleteA k tl h₂)

/-- The bounded push of the offline queue never exceeds 50 entries. -/
theorem pushBounded_length (q : List Broadcast.RTEvent) (e : Broadcast.RTEvent)
    (h : q.length ≤ 50) : (Broadcast.pushBounded q e).length ≤ 50 := by
  unfold Broadcast.pushBounded
  dsimp only
  split
  · rename_i hlen
    rw [List.length_tail, List.length_append]
    simp only [List.length_cons, List.length_nil]
    omega
  · rename_i hlen
    rw [List.length_append] at hlen ⊢
    simp only [List.length_cons, List.length_nil] at hlen ⊢
    omega

/-- A successful `lookupA` returns a stored entry. -/
theorem lookupA_mem {α : Type} {k : String} {v : α} {m : List (String × α)}
    (h : lookupA k m = some v) : (k, v) ∈ m := by
  induction m with
  | nil => simp [lookupA] at h
  | cons hd tl ih =>
    obtain ⟨k₁, v₁⟩ := hd
    by_cases h₁ : k₁ = k
    · subst h₁
      simp only [lookupA, if_pos rfl] at h
      simp [Option.some.inj h]
    · simp only [lookupA, if_neg h₁] at h
      exact List.mem_cons_of_mem _ (ih h)

/-- Every entry of the offline-queue store after the user loop of `broadcast`
is bounded by 50 (given a bounded input store). -/
theorem queueBound_foldl (userIds : List String)
    (clients : List (String × Broadcast.Client)) (e : Broadcast.RTEvent) :
    ∀ qs : List (String × List Broadcast.RTEvent),
      (∀ p ∈ qs, p.2.length ≤ 50) →
      ∀ p ∈ userIds.foldl (fun q u =>
          if clients.any (fun c => c.2.userId == u) then q
          else setA u (Broadcast.pushBounded ((lookupA u q).getD []) e) q) qs,
        p.2.length ≤ 50 := by
  induction userIds with
  | nil => intro qs h; exact h
  | cons u rest ih =>
    intro qs h
    rw [List.foldl_cons]
    by_cases hon : clients.any (fun c => c.2.userId == u)
    · rw [if_pos hon]
      exact ih qs h
    · rw [if_neg hon]
      apply ih
      intro p hp
      rcases mem_setA hp with h₁ | h₁
      · subst h₁
        show (Broadcast.pushBounded ((lookupA u qs).getD []) e).length ≤ 50
        apply pushBounded_length
        cases hl : lookupA u qs with
        | none => simp
        | some q0 =>
          have := h (u, q0) (lookupA_mem hl)
          simpa [hl] using this
      · exact h p h₁

/-- Every broadcaster operation keeps every user's offline queue at 50 events
or fewer. -/
theorem stepB_queueBound {s : Broadcast.BState} (op : Broadcast.BOp)
    (h : ∀ p ∈ s.offlineQueue, p.2.length ≤ 50) :
    ∀ p ∈ (Broadcast.stepB s op).offlineQueue, p.2.length ≤ 50 := by
  cases op with
  | bcast e =>
    show ∀ p ∈ (Broadcast.broadcast s e).2.offlineQueue, p.2.length ≤ 50
    unfold Broadcast.broadcast
    dsimp only
    by_cases hempty : e.audience.userIds.isEmpty
    · rw [if_pos hempty]
      exact h
    · rw [if_neg hempty]
      exact queueBound_foldl e.audience.userIds s.clients e s.offlineQueue h
  | auth sid u r =>
    show ∀ p ∈ (Broadcast.authenticate s sid u r).2.offlineQueue, p.2.length ≤ 50
    unfold Broadcast.authenticate
    dsimp only
    split
    · exact h
    · split
      · exact h
      · intro p hp
        exact h p (mem_deleteA _ _ hp)
  | sub sid d => exact h
  | disc sid => exact h

/-- The queue bound holds after any operation sequence from the empty
stores. -/
theorem queueBound_runB_aux : ∀ (ops : List Broadcast.BOp) (s : Broadcast.BState),
    (∀ p ∈ s.offlineQueue, p.2.length ≤ 50) →
    ∀ p ∈ (ops.foldl Broadcast.stepB s).offlineQueue, p.2.length ≤ 50
  | [], _, h => h
  | op :: ops, _, h => queueBound_runB_aux ops _ (stepB_queueBound op h)

/-- C9: the offline queue of any user never exceeds 50 events (after any
sequence of broadcaster operations); and in the S5 scenario — 51 broadcasts
targeted at the offline user `U2` — the queue holds exactly the most recent
50 events in enqueue order (the oldest, `evt-0`, was discarded), the next
`authenticate` delivers exactly those 50 events in order, and the queue is
cleared. -/
theorem offline_queue_bound_and_drain :
    (∀ (ops : List Broadcast.BOp) (p : String × List Broadcast.RTEvent),
      p ∈ (Broadcast.runB ops).offlineQueue → p.2.length ≤ 50) ∧
    lookupA "U2" (Broadcast.runB Broadcast.s5Ops).offlineQueue =
      some (((List.range 51).drop 1).map Broadcast.s5Event) ∧
    (Broadcast.authenticate (Broadcast.runB Broadcast.s5Ops) "sock2" "U2" .customer).1 =
      ((List.range 51).drop 1).map (fun i => ("sock2", Broadcast.s5Event i)) ∧
    lookupA "U2"
      (Broadcast.authenticate (Broadcast.runB Broadcast.s5Ops) "sock2" "U2"
        .customer).2.offlineQueue = none := by
  refine ⟨?_, by set_option maxRecDepth 8000 in decide,
    by set_option maxRecDepth 8000 in decide,
    by set_option maxRecDepth 8000 in decide⟩
  intro ops p hp
  refine queueBound_runB_aux ops Broadcast.initBroadcast ?_ p hp
  intro q hq
  exact absurd hq (List.not_mem_nil q)

/-- C8 counterexample: with the recipient's preferences restricting channels
to `[push]`, a `normal`-priority send on `sms` is not rejected — it stores a
`sent` record and performs the delivery attempt. -/
theorem sendNotification_preference_counterexample :
    (Notifier.sendNotification
        (Notifier.setUserPreferences Notifier.initNotifier "u1" [.push] none)
        "u1" .sms "tpl-arrival" "parcel arriving" .normal "n1" "iv0" 0).toOption.map
      (fun p => (p.1.status, p.2.notificationStore.length)) = some (.sent, 1) ∧
    Notifier.Priority.normal ≠ .critical := by
  exact ⟨by decide, by decide⟩

/-- C8 (amended): `sendNotification` never consults the recipient's channel
preferences: its result, notification store and rate-limit store are
unchanged under any replacement of the preference table; and every send that
is not rate-limited succeeds regardless of channel membership and priority,
storing the record with status `sent`. -/
theorem sendNotification_ignores_preferences :
    (∀ (s : Notifier.NState) (prefs₁ prefs₂ : List (String × Notifier.Prefs))
        (recipientId : String) (channel : Notifier.Channel)
        (templateId content : String) (priority : Notifier.Priority)
        (freshId iv : String) (now : Nat),
      (Notifier.sendNotification { s with userPreferences := prefs₁ }
          recipientId channel templateId content priority freshId iv now).map
        (fun p => (p.1, p.2.notificationStore, p.2.rateLimitStore)) =
      (Notifier.sendNotification { s with userPreferences := prefs₂ }
          recipientId channel templateId content priority freshId iv now).map
        (fun p => (p.1, p.2.notificationStore, p.2.rateLimitStore))) ∧
    (∀ (s : Notifier.NState) (recipientId : String) (channel : Notifier.Channel)
        (templateId content : String) (priority : Notifier.Priority)
        (freshId iv : String) (now : Nat),
      Notifier.rateLimited s
          ("notify:" ++ recipientId ++ ":" ++ Notifier.channelName channel) now = false →
      ∃ rec st,
        Notifier.sendNotification s recipientId channel templateId content priority
          freshId iv now = .ok (rec, st) ∧
        rec.status = .sent ∧
        rec.sentAt = some now ∧
        lookupA freshId st.notificationStore = some rec) := by
  constructor
  · intro s prefs₁ prefs₂ recipientId channel templateId content priority freshId iv now
    unfold Notifier.sendNotification
    dsimp only
    by_cases hrl : Notifier.rateLimited { s with userPreferences := prefs₁ }
        ("notify:" ++ recipientId ++ ":" ++ Notifier.channelName channel) now = true
    · rw [if_pos hrl,
        if_pos (show Notifier.rateLimited { s with userPreferences := prefs₂ }
          ("notify:" ++ recipientId ++ ":" ++ Notifier.channelName channel) now = true
          from hrl)]
    · rw [if_neg hrl,
        if_neg (show ¬ Notifier.rateLimited { s with userPreferences := prefs₂ }
          ("notify:" ++ recipientId ++ ":" ++ Notifier.channelName channel) now = true
          from hrl)]
      rfl
  · intro s recipientId channel templateId content priority freshId iv now hrl
    unfold Notifier.sendNotification
    dsimp only
    rw [hrl, if_neg Bool.false_ne_true]
    exact ⟨_, _, rfl, rfl, rfl, lookupA_setA_same _ _ _⟩

/-- Witness for the amended C8: the result is identical whether the recipient
prefers `[push]` only or has no stored preferences, and the concrete
non-rate-limited sms send succeeds with a stored `sent` record. -/
theorem sendNotification_ignores_preferences_witness :
    ((Notifier.sendNotification
        { Notifier.initNotifier with userPreferences := [("u1", ⟨[.push], none⟩)] }
        "u1" Notifier.Channel.sms "tpl-arrival" "parcel arriving" .normal "n1" "iv0" 0).map
      (fun p => (p.1, p.2.notificationStore, p.2.rateLimitStore)) =
      (Notifier.sendNotification
        { Notifier.initNotifier with userPreferences := [] }
        "u1" Notifier.Channel.sms "tpl-arrival" "parcel arriving" .normal "n1" "iv0" 0).map
      (fun p => (p.1, p.2.notificationStore, p.2.rateLimitStore))) ∧
    (∃ rec st,
      Notifier.sendNotification Notifier.initNotifier "u1" .sms "tpl-arrival"
        "parcel arriving" .normal "n1" "iv0" 0 = .ok (rec, st) ∧
      rec.status = .sent ∧
      rec.sentAt = some 0 ∧
      lookupA "n1" st.notificationStore = some rec) := by
  constructor
  · exact sendNotification_ignores_preferences.1 Notifier.initNotifier
      [("u1", ⟨[.push], none⟩)] [] "u1" .sms "tpl-arrival" "parcel arriving"
      .normal "n1" "iv0" 0
  · exact sendNotification_ignores_preferences.2 Notifier.initNotifier
      "u1" .sms "tpl-arrival" "parcel arriving" .normal "n1" "iv0" 0 (by decide)

/-- C10: `requirePermission` does not honor the `'*'` wildcard: for every
permission `p ≠ "*"`, a request authenticated as `admin` or `system` (grant
list exactly `["*"]`) is rejected with 403 FORBIDDEN, even though
`hasPermission` returns `true` for those roles. -/
theorem requirePermission_ignores_wildcard (p : AccessControl.Permission) (hp : p ≠ "*") :
    AccessControl.requirePermission p (some (AccessControl.authedAs "u1" .admin)) = .forbidden403 ∧
    AccessControl.requirePermission p (some (AccessControl.authedAs "u1" .system)) = .forbidden403 ∧
    AccessControl.hasPermission .admin p = true ∧
    AccessControl.hasPermission .system p = true := by
  have hcontains : (["*"] : List String).contains p = false := by
    simp [List.contains]
    exact hp
  refine ⟨?_, ?_, ?_, ?_⟩ <;>
    simp [AccessControl.requirePermission, AccessControl.authedAs,
      AccessControl.getUserPermissions, AccessControl.hasPermission, hcontains, hp]

/-- Witness for C10 at the concrete permission `read:audit`. -/
theorem requirePermission_ignores_wildcard_witness :
    AccessControl.requirePermission "read:audit" (some (AccessControl.authedAs "u1" .admin)) = .forbidden403 ∧
    AccessControl.requirePermission "read:audit" (some (AccessControl.authedAs "u1" .system)) = .forbidden403 ∧
    AccessControl.hasPermission .admin "read:audit" = true ∧
    AccessControl.hasPermission .system "read:audit" = true :=
  requirePermission_ignores_wildcard "read:audit" (by decide)

/-- C7: ciphertext integrity. For every plaintext `t`, context `ctx` and iv,
`decrypt (encrypt t ctx) ctx` returns `t`; and decryption under any other
context `ctx' ≠ ctx` fails with the authentication failure, never returning a
plaintext. -/
theorem encrypt_decrypt_integrity (t ctx iv ctx' : String) (h : ctx' ≠ ctx) :
    Crypto.decrypt (Crypto.encrypt t ctx iv) ctx = .ok t ∧
    Crypto.decrypt (Crypto.encrypt t ctx iv) ctx' = .error .authFailed := by
  constructor
  · simp [Crypto.decrypt, Crypto.encrypt]
  · simp [Crypto.decrypt, Crypto.encrypt, Crypto.deriveKey]
    exact fun hh => h hh.symm

/-- Witness for C7 at concrete plaintext, iv and the distinct contexts
`delivery-1` / `delivery-2`. -/
theorem encrypt_decrypt_integrity_witness :
    Crypto.decrypt (Crypto.encrypt "recipient data" "delivery-1" "nonce0") "delivery-1" = .ok "recipient data" ∧
    Crypto.decrypt (Crypto.encrypt "recipient data" "delivery-1" "nonce0") "delivery-2" = .error .authFailed :=
  encrypt_decrypt_integrity "recipient data" "delivery-1" "nonce0" "delivery-2" (by decide)

end Kenyaship
